import Mathlib

/-!
Verification of the Rayment client SDK (batch render orchestrator, price
estimation, payment-gated job lifecycle, on-chain payment verification).

Amounts of SOL are embedded as exact rationals (`ℚ`); timestamps as `ℤ`
(milliseconds); JavaScript `Math.round` is embedded as `⌊x + 1/2⌋`, which is
its behaviour on all inputs (halves round toward +∞).
-/

namespace Rayment

/-- JavaScript `Math.round`: round half toward positive infinity. -/
def jround (q : ℚ) : ℤ := ⌊q + 1 / 2⌋

/-- Round a SOL amount to 6 decimal places, as `Math.round(x * 1000000) / 1000000`. -/
def round6 (q : ℚ) : ℚ := (jround (q * 1000000) : ℚ) / 1000000

/-- JavaScript `x || d` for a possibly-absent number: `undefined` and `0` are falsy. -/
def jsOrNum (x : Option ℚ) (d : ℚ) : ℚ :=
  match x with
  | none => d
  | some v => if v = 0 then d else v

/-- JavaScript `x || d` for a possibly-absent string: `undefined` and `""` are falsy. -/
def jsOrStr (x : Option String) (d : String) : String :=
  match x with
  | none => d
  | some s => if s = "" then d else s

/-- JavaScript template-literal interpolation of a possibly-absent string:
an absent value prints as "undefined". -/
def jsUndef (x : Option String) : String :=
  match x with
  | none => "undefined"
  | some s => s

/-- JavaScript truthiness of a possibly-absent string (`if (result.error)`). -/
def jsTruthy (x : Option String) : Bool :=
  match x with
  | none => false
  | some s => s ≠ ""

/-- Provider tariff (`ProviderPricing` in `types.ts`); all prices in SOL. -/
structure ProviderPricing where
  pricePerFrame : ℚ
  pricePerSecond : ℚ
  pricePerGb : ℚ
  minimumPrice : ℚ
  deriving DecidableEq, Repr

/-- Job characteristics passed to `calculatePrice` (`jobInfo` in `solana.ts`). -/
structure JobInfo where
  fileSizeMb : ℚ
  frameCount : ℚ
  estimatedRenderSeconds : ℚ
  deriving DecidableEq, Repr

/-- Price breakdown (`PriceBreakdown` in `types.ts`). -/
structure PriceBreakdown where
  basePrice : ℚ
  fileSizeFee : ℚ
  frameFee : ℚ
  estimatedRenderFee : ℚ
  platformFee : ℚ
  total : ℚ
  deriving DecidableEq, Repr

/-- `calculatePrice` from `src/utils/solana.ts` (lines 221-259): per-unit fees,
base price floored at the tariff minimum, 5%-default platform fee, and the
total rounded to 6 decimal places at the very end. -/
def calculatePrice (pricing : ProviderPricing) (jobInfo : JobInfo)
    (platformFeePercent : ℚ) : PriceBreakdown :=
  let fileSizeFee := jobInfo.fileSizeMb / 1024 * pricing.pricePerGb
  let frameFee := jobInfo.frameCount * pricing.pricePerFrame
  let estimatedRenderFee := jobInfo.estimatedRenderSeconds * pricing.pricePerSecond
  let subtotal := fileSizeFee + frameFee + estimatedRenderFee
  let basePrice := max subtotal pricing.minimumPrice
  let platformFee := basePrice * (platformFeePercent / 100)
  let total := basePrice + platformFee
  { basePrice := basePrice
    fileSizeFee := fileSizeFee
    frameFee := frameFee
    estimatedRenderFee := estimatedRenderFee
    platformFee := platformFee
    total := round6 total }

/-- The breakdown computed by `RaymentClient.estimateCost` (client, lines
257-300): same fee formulas with `frameCount || 1`, a fixed 60-second render
estimate, a fixed 5% platform fee, and no rounding anywhere. -/
def estimateCostBreakdown (pricing : ProviderPricing) (fileSizeMb : ℚ)
    (frameCount? : Option ℚ) : PriceBreakdown :=
  let frameCount := jsOrNum frameCount? 1
  let estimatedSeconds : ℚ := 60
  let fileSizeFee := fileSizeMb / 1024 * pricing.pricePerGb
  let frameFee := frameCount * pricing.pricePerFrame
  let estimatedRenderFee := estimatedSeconds * pricing.pricePerSecond
  let subtotal := fileSizeFee + frameFee + estimatedRenderFee
  let basePrice := max subtotal pricing.minimumPrice
  let platformFee := basePrice * (5 / 100 : ℚ)
  let total := basePrice + platformFee
  { basePrice := basePrice
    fileSizeFee := fileSizeFee
    frameFee := frameFee
    estimatedRenderFee := estimatedRenderFee
    platformFee := platformFee
    total := total }

/-- The tariff of the spec's pricing scenario (also the example provider's
pricing in the repository's examples). -/
def tariff0 : ProviderPricing :=
  { pricePerFrame := 1 / 1000
    pricePerSecond := 1 / 10000
    pricePerGb := 1 / 100
    minimumPrice := 5 / 1000 }

/-- The job of the spec's pricing scenario: 100 MB, 1 frame, 60 s estimate. -/
def job0 : JobInfo :=
  { fileSizeMb := 100, frameCount := 1, estimatedRenderSeconds := 60 }

/-- A 402 quote (`PaymentRequired` in `types.ts`): job id, price in SOL, the
provider wallet to pay, an expiry timestamp, and a payment memo. -/
structure PaymentRequired where
  jobId : String
  price : ℚ
  payTo : String
  expiresAt : ℤ
  memo : String
  deriving DecidableEq, Repr

/-- The hub's reply to `POST /render/pay` (`res.data` in `payForRender`). -/
structure ConfirmResp where
  success : Bool
  error : Option String
  deriving DecidableEq, Repr

/-- The slice of a `RenderJob` that the client logic reads. -/
structure RenderJob where
  status : String
  error : Option String
  renderTime : Option ℚ
  deriving DecidableEq, Repr

/-- The payment-and-confirmation sequence of `RaymentClient.payForRender`
(client, lines 126-146), reached once the private-key check has passed: invoke
the payment capability, then confirm with the hub, failing on a rejected
promise or on `success: false`. -/
def payForRenderResult (sendPayment : String → ℚ → String → Except String String)
    (confirmPay : String → String → Except String ConfirmResp)
    (payment : PaymentRequired) : Except String String :=
  match sendPayment payment.payTo payment.price payment.memo with
  | .error e => .error e
  | .ok txSignature =>
    match confirmPay payment.jobId txSignature with
    | .error e => .error e
    | .ok res =>
      if res.success = false then .error (jsOrStr res.error "Payment confirmation failed")
      else .ok payment.jobId

/-- `RaymentClient.payForRender` (client, lines 121-147).  External calls are
oracles: `sendPayment` is the injected Solana payment capability and
`confirmPay` the hub's `POST /render/pay`; a `.error` models a rejected
promise.  The second component records whether the payment capability was
invoked: after the private-key check the code calls `sendPayment`
unconditionally.  The function reads `payment.payTo`, `payment.price`,
`payment.memo` and `payment.jobId` only — there is no expiry check. -/
def payForRender (hasSolana : Bool)
    (sendPayment : String → ℚ → String → Except String String)
    (confirmPay : String → String → Except String ConfirmResp)
    (payment : PaymentRequired) : Except String String × Bool :=
  if hasSolana = false then (.error "Private key required for payments", false)
  else (payForRenderResult sendPayment confirmPay payment, true)

/-- The polling loop of `RaymentClient.waitForCompletion` (client, lines
160-193).  `polls n` is the hub's reply to the `n`-th `getJobStatus` request
(`.error` models a rejected request, i.e. a network failure);
`elapsedAfter n` is `Date.now() - startTime` when the `n`-th reply has been
processed.  `fuel` bounds the unrolling; `none` means the loop has not finished
within `fuel` iterations.  On success the result also reports how many status
requests were issued. -/
def waitForCompletion (polls : ℕ → Except String RenderJob) (elapsedAfter : ℕ → ℤ)
    (timeout : ℤ) : ℕ → ℕ → Option (Except String RenderJob × ℕ)
  | 0, _ => none
  | fuel + 1, n =>
    match polls n with
    | .error e => some (.error e, n + 1)
    | .ok job =>
      if job.status = "completed" then some (.ok job, n + 1)
      else if job.status = "failed" then
        some (.error ("Render failed: " ++ jsUndef job.error), n + 1)
      else if timeout < elapsedAfter n then some (.error "Timeout waiting for render", n + 1)
      else waitForCompletion polls elapsedAfter timeout fuel (n + 1)

/-- One entry of a batch result (`BatchFileResult` in `types.ts`). -/
structure BatchFileResult where
  file : String
  outputPath : Option String := none
  jobId : Option String := none
  cost : Option ℚ := none
  renderTime : Option ℚ := none
  error : Option String := none
  deriving DecidableEq, Repr

/-- The external world as seen by one batch job: file existence, the hub's
quote for the upload, the payment capability, the hub's confirmation endpoint,
the per-job status-poll stream with its clock, and the result download. -/
structure ClientEnv where
  fileExists : String → Bool
  requestRender : String → Except String PaymentRequired
  hasSolana : Bool
  sendPayment : String → ℚ → String → Except String String
  confirmPay : String → String → Except String ConfirmResp
  polls : String → ℕ → Except String RenderJob
  elapsedAfter : ℕ → ℤ
  download : String → Except String String

/-- `processFile` inside `RaymentClient.renderBatch` (client, lines 377-449):
existence check, then request → pay → wait → download, with every thrown error
caught and turned into a failed `BatchFileResult` carrying the message.  The
second component is the file's final `BatchFileStatus.status`.  `none` means
the poll loop outlived `fuel`. -/
def processFile (env : ClientEnv) (fuel : ℕ) (timeout : ℤ) (filePath : String) :
    Option (BatchFileResult × String) :=
  if env.fileExists filePath = false then
    some ({ file := filePath, error := some ("File not found: " ++ filePath) }, "failed")
  else
    match env.requestRender filePath with
    | .error e => some ({ file := filePath, error := some e }, "failed")
    | .ok payment =>
      match (payForRender env.hasSolana env.sendPayment env.confirmPay payment).1 with
      | .error e => some ({ file := filePath, error := some e }, "failed")
      | .ok jobId =>
        match waitForCompletion (env.polls jobId) env.elapsedAfter timeout fuel 0 with
        | none => none
        | some (.error e, _) => some ({ file := filePath, error := some e }, "failed")
        | some (.ok job, _) =>
          match env.download jobId with
          | .error e => some ({ file := filePath, error := some e }, "failed")
          | .ok resultPath =>
            some ({ file := filePath, outputPath := some resultPath, jobId := some jobId,
                    cost := some payment.price, renderTime := job.renderTime }, "completed")

/-- The result of `SolanaPayment.verifyPayment`. -/
structure VerifyResult where
  valid : Bool
  error : Option String
  deriving DecidableEq, Repr

/-- The slice of a confirmed Solana transaction read by `verifyPayment`:
whether `meta.err` is set, the pre/post lamport balances, and the static
account keys (base58). -/
structure TxData where
  err : Bool
  preBalances : List ℤ
  postBalances : List ℤ
  accountKeys : List String
  deriving DecidableEq, Repr

/-- Lamports per SOL. -/
def LAMPORTS_PER_SOL : ℚ := 1000000000

/-- `SolanaPayment.verifyPayment` from `src/utils/solana.ts` (lines 100-152).
`tx?` is the looked-up transaction (`none` = not found).  The expected memo
parameter is accepted but never checked (the source skips memo verification).
A payment is accepted whenever the recipient's balance increase is at least
the expected amount minus a 0.0001 SOL tolerance. -/
def verifyPayment (tx? : Option TxData) (expectedTo : String) (expectedAmountSOL : ℚ)
    (expectedMemo : Option String) : VerifyResult :=
  match tx? with
  | none => { valid := false, error := some "Transaction not found" }
  | some tx =>
    if tx.err then { valid := false, error := some "Transaction failed" }
    else
      match tx.accountKeys.findIdx? (· == expectedTo) with
      | none => { valid := false, error := some "Recipient not found in transaction" }
      | some toIndex =>
        let received : ℚ :=
          ((tx.postBalances.getD toIndex 0 - tx.preBalances.getD toIndex 0 : ℤ) : ℚ)
            / LAMPORTS_PER_SOL
        let tolerance : ℚ := 1 / 10000
        if received < expectedAmountSOL - tolerance then
          { valid := false
            error := some ("Insufficient amount: expected " ++ toString expectedAmountSOL
              ++ ", got " ++ toString received) }
        else { valid := true, error := none }

/-- A payment capability that always succeeds with signature "sig0". -/
def sendOk : String → ℚ → String → Except String String := fun _ _ _ => .ok "sig0"

/-- A hub confirmation endpoint that always accepts. -/
def confirmOk : String → String → Except String ConfirmResp := fun _ _ => .ok ⟨true, none⟩

/-- A quote whose `expiresAt` is 0, i.e. far in the past of any realistic call
time. -/
def quote0 : PaymentRequired :=
  { jobId := "job-1", price := 1 / 100, payTo := "provider-wallet", expiresAt := 0
    memo := "rayment:job-1" }

/-- The concrete environment for the download-failure scenario: the file
exists, the hub quotes `quote0`, payment and confirmation succeed, every
status poll reports "completed", and the result download rejects with a 404. -/
def envDl : ClientEnv :=
  { fileExists := fun _ => true
    requestRender := fun _ => .ok quote0
    hasSolana := true
    sendPayment := sendOk
    confirmPay := confirmOk
    polls := fun _ _ => .ok ⟨"completed", none, some 12⟩
    elapsedAfter := fun _ => 0
    download := fun _ => .error "Request failed with status code 404" }

/-- Remove the first occurrence of an entry from a list (the settling promise
leaves the in-flight set exactly once). -/
def removeFirst (l : List (String × ℕ)) (x : String × ℕ) : List (String × ℕ) :=
  match l with
  | [] => []
  | p :: t => if p = x then t else p :: removeFirst t x

/-- JavaScript `Map.set` on an insertion-ordered association list: an existing
key keeps its position and gets the new value; a new key is appended. -/
def mapSet (m : List (String × ℕ)) (k : String) (v : ℕ) : List (String × ℕ) :=
  if m.any (fun p => p.1 == k) then m.map (fun p => if p.1 == k then (k, v) else p)
  else m ++ [(k, v)]

/-- JavaScript `Map.delete`: remove the entry with the given key, if any. -/
def mapDelete (m : List (String × ℕ)) (k : String) : List (String × ℕ) :=
  m.filter (fun p => !(p.1 == k))

/-- The state of the `renderBatch` scheduling loop (client, lines 452-481):
the pending `queue`, the `activePromises` map from file path to promise id,
the promises started whose `.then` continuation has not yet run (`running` —
the lifecycles actually in flight), the two result partitions, and a counter
issuing promise ids. -/
structure BatchState where
  queue : List String
  active : List (String × ℕ)
  running : List (String × ℕ)
  successful : List BatchFileResult
  failed : List BatchFileResult
  nextId : ℕ
  deriving DecidableEq, Repr

/-- The scheduler state right after `renderBatch`'s validation and
initialisation, before any job has started. -/
def initState (files : List String) : BatchState :=
  { queue := files, active := [], running := [], successful := [], failed := []
    nextId := 0 }

/-- The input validation of `renderBatch` (client, lines 328-331): an empty
file list throws before any job starts; nothing else is validated — in
particular the `concurrency` option is accepted unchecked. -/
def renderBatchValidated (files : List String) (concurrency : ℤ) :
    Except String BatchState :=
  if files.isEmpty then .error "No files provided for batch rendering"
  else .ok (initState files)

/-- One iteration of the inner fill loop (client, lines 457-475): dequeue the
head file, start its `processFile` promise, record it in `activePromises`
(overwriting any entry under the same file path) and in the in-flight set. -/
def applyStart (s : BatchState) (f : String) (rest : List String) : BatchState :=
  { queue := rest
    active := mapSet s.active f s.nextId
    running := s.running ++ [(f, s.nextId)]
    successful := s.successful
    failed := s.failed
    nextId := s.nextId + 1 }

/-- The `.then` continuation of a settled `processFile` promise (client,
lines 460-472): push the result to `failed` (clearing the queue when
`stopOnError`) or to `successful`, and delete the promise's file key from
`activePromises`. -/
def applyFinish (stopOnError : Bool) (outcome : String → BatchFileResult)
    (s : BatchState) (f : String) (id : ℕ) : BatchState :=
  let result := outcome f
  { queue := if jsTruthy result.error && stopOnError then [] else s.queue
    active := mapDelete s.active f
    running := removeFirst s.running (f, id)
    successful := if jsTruthy result.error then s.successful else s.successful ++ [result]
    failed := if jsTruthy result.error then s.failed ++ [result] else s.failed
    nextId := s.nextId }

/-- Small-step semantics of the `renderBatch` scheduling loop.  `start` is
enabled exactly under the inner loop's guard
(`queue.length > 0 && activePromises.size < concurrency`); `finish` settles
any in-flight promise — completion order is unconstrained, driven by external
latency.  `outcome f` is the `BatchFileResult` that `processFile f` settles
with (`processFile` never rejects: every error is caught and returned as a
result carrying `error`). -/
inductive BatchStep (N : ℤ) (stopOnError : Bool) (outcome : String → BatchFileResult) :
    BatchState → BatchState → Prop
  | start (s : BatchState) (f : String) (rest : List String)
      (hq : s.queue = f :: rest) (hcap : (s.active.length : ℤ) < N) :
      BatchStep N stopOnError outcome s (applyStart s f rest)
  | finish (s : BatchState) (f : String) (id : ℕ) (hmem : (f, id) ∈ s.running) :
      BatchStep N stopOnError outcome s (applyFinish stopOnError outcome s f id)

/-- Whether the scheduling loop can make progress from `s`: either the inner
guard lets a queued file start, or an in-flight promise can settle.  When this
is false while the queue is non-empty, the `while` loop of `renderBatch` spins
forever without starting a job. -/
def canStep (N : ℤ) (s : BatchState) : Bool :=
  (!s.queue.isEmpty && decide ((s.active.length : ℤ) < N)) || !s.running.isEmpty

/-- Every input file's current whereabouts: still queued, in flight, or
recorded in one of the two result partitions. -/
def batchFiles (s : BatchState) : List String :=
  s.queue ++ s.running.map Prod.fst ++ s.successful.map BatchFileResult.file
    ++ s.failed.map BatchFileResult.file

/-- The scheduler invariant for duplicate-free inputs: the `activePromises`
map coincides with the in-flight set, the queued and in-flight file paths are
pairwise distinct, and the in-flight count respects the concurrency bound. -/
def DistinctInv (N : ℤ) (s : BatchState) : Prop :=
  s.active = s.running ∧ (s.queue ++ s.running.map Prod.fst).Nodup
    ∧ (s.running.length : ℤ) ≤ N

/-- A per-file outcome where every job succeeds. -/
def ocBase : String → BatchFileResult := fun f => { file := f }

/-- A per-file outcome where file "a" fails payment confirmation and every
other file succeeds. -/
def ocStop : String → BatchFileResult := fun f =>
  if f = "a" then { file := f, error := some "Payment confirmation failed" }
  else { file := f }

/-- The final scheduler state of the stop-on-error scenario on
`["a", "b"]` with concurrency 1: "a" failed, the queue was drained, and "b"
was never recorded anywhere. -/
def finalStop : BatchState :=
  { queue := [], active := [], running := [], successful := []
    failed := [{ file := "a", error := some "Payment confirmation failed" }]
    nextId := 1 }

/-- The scheduler state reached by the greedy synchronous fill phase on the
duplicate input list `["a", "a", "b"]` with concurrency 2: three
`processFile` promises are in flight while `activePromises` holds only two
entries, because the second start of "a" overwrote the first one's map entry. -/
def dupFill : BatchState :=
  { queue := [], active := [("a", 1), ("b", 2)]
    running := [("a", 0), ("a", 1), ("b", 2)], successful := [], failed := []
    nextId := 3 }

/-- The final scheduler state of the one-file success scenario. -/
def doneA : BatchState := ⟨[], [], [], [{ file := "a" }], [], 1⟩

/-- The scheduler state reached on the duplicated input `["a", "a"]` with
concurrency 2 when the second copy settles first: its `.then` deleted the
shared map key, so queue and active map are empty — the loop's exit condition
— while the first copy's lifecycle is still running and only one result was
recorded. -/
def dupDrop : BatchState := ⟨[], [], [("a", 0)], [{ file := "a" }], [], 2⟩

/-- The scheduler state with the single file "a" in flight. -/
def oneInFlight : BatchState := ⟨[], [("a", 0)], [("a", 0)], [], [], 1⟩

/-- Rounding to 6 decimal places loses at most half a micro-SOL downward. -/
theorem round6_lower (q : ℚ) : q - 1 / 2000000 ≤ round6 q := by
  have h := Int.sub_one_lt_floor (q * 1000000 + 1 / 2)
  unfold round6 jround
  rw [le_div_iff₀ (by norm_num : (0 : ℚ) < 1000000)]
  linarith

/-- C5: `calculatePrice` computes the three per-unit fees unrounded, floors the
base price at the tariff minimum, and rounds only the total, once, at the end:
`total = round6 (basePrice * (1 + rate/100))`.  The client's `estimateCost`
computes the same unrounded fee fields and floored base price (with the fee
rate fixed at 5%), but applies no rounding at all to its total. -/
theorem calculatePrice_breakdown_spec (pricing : ProviderPricing) (jobInfo : JobInfo)
    (rate : ℚ) (fileSizeMb : ℚ) (frameCount? : Option ℚ) :
    ((calculatePrice pricing jobInfo rate).fileSizeFee
        = jobInfo.fileSizeMb / 1024 * pricing.pricePerGb
      ∧ (calculatePrice pricing jobInfo rate).frameFee
          = jobInfo.frameCount * pricing.pricePerFrame
      ∧ (calculatePrice pricing jobInfo rate).estimatedRenderFee
          = jobInfo.estimatedRenderSeconds * pricing.pricePerSecond
      ∧ (calculatePrice pricing jobInfo rate).basePrice
          = max ((calculatePrice pricing jobInfo rate).fileSizeFee
              + (calculatePrice pricing jobInfo rate).frameFee
              + (calculatePrice pricing jobInfo rate).estimatedRenderFee)
            pricing.minimumPrice
      ∧ (calculatePrice pricing jobInfo rate).platformFee
          = (calculatePrice pricing jobInfo rate).basePrice * (rate / 100)
      ∧ (calculatePrice pricing jobInfo rate).total
          = round6 ((calculatePrice pricing jobInfo rate).basePrice * (1 + rate / 100)))
    ∧ ((estimateCostBreakdown pricing fileSizeMb frameCount?).basePrice
        = max ((estimateCostBreakdown pricing fileSizeMb frameCount?).fileSizeFee
            + (estimateCostBreakdown pricing fileSizeMb frameCount?).frameFee
            + (estimateCostBreakdown pricing fileSizeMb frameCount?).estimatedRenderFee)
          pricing.minimumPrice
      ∧ (estimateCostBreakdown pricing fileSizeMb frameCount?).total
          = (estimateCostBreakdown pricing fileSizeMb frameCount?).basePrice
              * (1 + 5 / 100)) := by
  refine ⟨⟨rfl, rfl, rfl, rfl, rfl, ?_⟩, rfl, ?_⟩
  · simp only [calculatePrice]
    congr 1
    ring
  · simp only [estimateCostBreakdown]
    ring

/-- C5 counterexample: the client-side `estimateCost` does not round its total
to 6 decimal places — on the spec's own scenario the total it returns,
0.008375390625 SOL, is not a 6-decimal quantity. -/
theorem estimateCost_total_not_rounded :
    (estimateCostBreakdown tariff0 100 (some 1)).total
      ≠ round6 ((estimateCostBreakdown tariff0 100 (some 1)).total) := by
  norm_num [estimateCostBreakdown, jsOrNum, round6, jround, tariff0]

/-- C6 (amended): the tariff minimum is a floor on the base price (never an
error), and the rounded total undercuts `minimumPrice * (1 + rate/100)` by at
most half a micro-SOL (the final 6-decimal rounding can lose up to
`1/2000000` SOL, so the exact inequality of the claim fails only within that
margin). -/
theorem calculatePrice_minimum_floor (pricing : ProviderPricing) (jobInfo : JobInfo)
    (rate : ℚ) (h : 0 ≤ 1 + rate / 100) :
    pricing.minimumPrice ≤ (calculatePrice pricing jobInfo rate).basePrice
    ∧ pricing.minimumPrice * (1 + rate / 100) - 1 / 2000000
        ≤ (calculatePrice pricing jobInfo rate).total := by
  constructor
  · exact le_max_right _ _
  · have h1 : pricing.minimumPrice * (1 + rate / 100)
        ≤ (calculatePrice pricing jobInfo rate).basePrice * (1 + rate / 100) :=
      mul_le_mul_of_nonneg_right (le_max_right _ _) h
    have h2 := round6_lower ((calculatePrice pricing jobInfo rate).basePrice * (1 + rate / 100))
    have h3 : (calculatePrice pricing jobInfo rate).total
        = round6 ((calculatePrice pricing jobInfo rate).basePrice * (1 + rate / 100)) := by
      simp only [calculatePrice]
      congr 1
      ring
    rw [h3]
    linarith

/-- C6 witness: at the scenario tariff and job with a 5% fee, the floor and the
half-micro-SOL-adjusted lower bound hold. -/
theorem calculatePrice_minimum_floor_witness :
    tariff0.minimumPrice ≤ (calculatePrice tariff0 job0 5).basePrice
    ∧ tariff0.minimumPrice * (1 + 5 / 100) - 1 / 2000000
        ≤ (calculatePrice tariff0 job0 5).total :=
  calculatePrice_minimum_floor tariff0 job0 5 (by norm_num)

/-- C6 counterexample: the claimed bound
`total ≥ minimumPrice * (1 + feeRate)` fails as stated: for a tariff whose
minimum price is 0.0000002 SOL and a zero-fee job at the 5% fee rate, the
6-decimal rounding sends the total to 0, strictly below
`minimumPrice * 1.05 = 0.00000021`. -/
theorem calculatePrice_total_below_minimum :
    (calculatePrice ⟨0, 0, 0, 1 / 5000000⟩ ⟨0, 0, 0⟩ 5).total
      < (1 / 5000000 : ℚ) * (1 + 5 / 100) := by
  norm_num [calculatePrice, round6, jround]

/-- C7 (amended): on the spec's scenario (tariff 0.01/GB, 0.001/frame,
0.0001/s, minimum 0.005; job 100 MB, 1 frame, 60 s; 5% fee) the breakdown is
`fileSizeFee = 1/1024 ≈ 0.000977`, `frameFee = 0.001`,
`estimatedRenderFee = 0.006`, `basePrice = 0.0079765625 ≈ 0.007977` (above the
minimum), `platformFee = 0.000398828125 ≈ 0.0003988`, and
`total = 0.008375` after rounding to 6 decimal places (not 0.008376: that
figure would require rounding the base price to 0.007977 before applying the
fee, which the code does not do). -/
theorem calculatePrice_scenario :
    (calculatePrice tariff0 job0 5).fileSizeFee = 1 / 1024
    ∧ (calculatePrice tariff0 job0 5).frameFee = 1 / 1000
    ∧ (calculatePrice tariff0 job0 5).estimatedRenderFee = 6 / 1000
    ∧ (calculatePrice tariff0 job0 5).basePrice = 79765625 / 10000000000
    ∧ (calculatePrice tariff0 job0 5).platformFee = 398828125 / 1000000000000
    ∧ (calculatePrice tariff0 job0 5).total = 8375 / 1000000 := by
  norm_num [calculatePrice, round6, jround, tariff0, job0]

/-- C7 counterexample: the spec's scenario total of 0.008376 SOL is not what
the code computes — `calculatePrice` yields exactly 0.008375 SOL there. -/
theorem calculatePrice_scenario_total_ne :
    (calculatePrice tariff0 job0 5).total = 8375 / 1000000
    ∧ (calculatePrice tariff0 job0 5).total ≠ 8376 / 1000000 := by
  norm_num [calculatePrice, round6, jround, tariff0, job0]

/-- C10: `verifyPayment` tolerates underpayment up to 0.0001 SOL: for a
transaction that exists, did not fail, and lists the expected recipient at
index `i` of its account keys, the payment is accepted whenever the
recipient's balance increase is at least `expectedAmountSOL - 0.0001`; and the
result never depends on the expected memo. -/
theorem verifyPayment_tolerance (tx : TxData) (expectedTo : String) (amt : ℚ)
    (memo memo' : Option String) (i : ℕ)
    (herr : tx.err = false)
    (hidx : tx.accountKeys.findIdx? (· == expectedTo) = some i)
    (hamt : amt - 1 / 10000
      ≤ ((tx.postBalances.getD i 0 - tx.preBalances.getD i 0 : ℤ) : ℚ) / LAMPORTS_PER_SOL) :
    (verifyPayment (some tx) expectedTo amt memo).valid = true
    ∧ verifyPayment (some tx) expectedTo amt memo
        = verifyPayment (some tx) expectedTo amt memo' := by
  refine ⟨?_, rfl⟩
  unfold verifyPayment
  simp only [herr, hidx, Bool.false_eq_true, if_false]
  rw [if_neg (not_lt.mpr (by linarith))]

/-- C10 witness: a transfer of 0.99995 SOL against an expected 1 SOL — short
by 0.00005 SOL, within the tolerance — is accepted, and the memo argument is
irrelevant. -/
theorem verifyPayment_tolerance_witness :
    (verifyPayment
        (some ⟨false, [5000000000, 1000000000], [4000000000, 1999950000], ["alice", "bob"]⟩)
        "bob" 1 (some "rayment:job-1")).valid = true
    ∧ verifyPayment
        (some ⟨false, [5000000000, 1000000000], [4000000000, 1999950000], ["alice", "bob"]⟩)
        "bob" 1 (some "rayment:job-1")
      = verifyPayment
          (some ⟨false, [5000000000, 1000000000], [4000000000, 1999950000], ["alice", "bob"]⟩)
          "bob" 1 none :=
  verifyPayment_tolerance _ "bob" 1 (some "rayment:job-1") none 1 rfl rfl
    (by norm_num [LAMPORTS_PER_SOL])

/-- C1 counterexample: paying against a quote that expired long before the
call (its `expiresAt` is 0, before the fixed call time 1700000000000 ms) still
invokes the payment capability (second component `true`) and completes with
`.ok` — there is no `QuoteExpired` failure and no fail-fast before payment. -/
theorem payForRender_pays_expired_quote :
    quote0.expiresAt < 1700000000000
    ∧ payForRender true sendOk confirmOk quote0 = (.ok "job-1", true) := by
  exact ⟨by decide, rfl⟩

/-- C1 (amended): `payForRender` performs no expiry check at all: whenever a
private key is configured the payment capability is invoked, and the entire
result is independent of the quote's `expiresAt` (so it cannot fail with
`QuoteExpired`, no matter the call time). -/
theorem payForRender_ignores_expiresAt (hasSolana : Bool)
    (send : String → ℚ → String → Except String String)
    (confirm : String → String → Except String ConfirmResp)
    (payment : PaymentRequired) (e : ℤ) (h : hasSolana = true) :
    (payForRender hasSolana send confirm payment).2 = true
    ∧ payForRender hasSolana send confirm { payment with expiresAt := e }
        = payForRender hasSolana send confirm payment := by
  subst h
  exact ⟨rfl, rfl⟩

/-- C1 witness: with a configured key, a concrete quote, and concrete payment
and confirmation capabilities, the payment is attempted and rewriting
`expiresAt` to 1 changes nothing. -/
theorem payForRender_ignores_expiresAt_witness :
    (payForRender true sendOk confirmOk quote0).2 = true
    ∧ payForRender true sendOk confirmOk { quote0 with expiresAt := 1 }
        = payForRender true sendOk confirmOk quote0 :=
  payForRender_ignores_expiresAt true sendOk confirmOk quote0 1 rfl

/-- C9 counterexample: a first status poll that fails with a network error
("connect ECONNRESET") rejects `waitForCompletion` immediately, after exactly
one status request, with the network error's own message — even with fuel for
ten loop iterations there is no retry, and the reason is not
"status check exhausted retries". -/
theorem waitForCompletion_poll_error_not_retried :
    waitForCompletion (fun _ => .error "connect ECONNRESET") (fun _ => 0) 600000 10 0
      = some (.error "connect ECONNRESET", 1)
    ∧ "connect ECONNRESET" ≠ "status check exhausted retries" := by
  exact ⟨rfl, by decide⟩

/-- C9 (amended): the poll loop carries no implicit retry, but neither does it
retry transient failures: if the `n`-th status request rejects, the loop stops
right there and propagates that error after that single additional request —
no backoff, no retry count, and no "status check exhausted retries" reason
anywhere in the code. -/
theorem waitForCompletion_propagates_first_poll_error
    (polls : ℕ → Except String RenderJob) (elapsedAfter : ℕ → ℤ) (timeout : ℤ)
    (fuel n : ℕ) (e : String) (h : polls n = .error e) (hf : 1 ≤ fuel) :
    waitForCompletion polls elapsedAfter timeout fuel n = some (.error e, n + 1) := by
  obtain ⟨m, rfl⟩ : ∃ m, fuel = m + 1 := ⟨fuel - 1, by omega⟩
  unfold waitForCompletion
  rw [h]

/-- C9 witness: a concrete poll stream whose third request fails: the loop
makes exactly three requests and returns that error. -/
theorem waitForCompletion_propagates_first_poll_error_witness :
    waitForCompletion
        (fun n => if n < 2 then .ok ⟨"rendering", none, none⟩ else .error "ETIMEDOUT")
        (fun _ => 0) 600000 10 2
      = some (.error "ETIMEDOUT", 3) :=
  waitForCompletion_propagates_first_poll_error
    (fun n => if n < 2 then .ok ⟨"rendering", none, none⟩ else .error "ETIMEDOUT")
    (fun _ => 0) 600000 10 2 "ETIMEDOUT" rfl (by norm_num)

/-- The poll loop returns `.ok` only when it has observed the remote status
"completed" (terminal states are sticky: polling stops at the first one). -/
theorem waitForCompletion_ok_status (polls : ℕ → Except String RenderJob)
    (elapsedAfter : ℕ → ℤ) (timeout : ℤ) :
    ∀ fuel n job k, waitForCompletion polls elapsedAfter timeout fuel n = some (.ok job, k)
      → job.status = "completed" := by
  intro fuel
  induction fuel with
  | zero =>
    intro n job k h
    simp [waitForCompletion] at h
  | succ m ih =>
    intro n job k h
    unfold waitForCompletion at h
    cases hp : polls n with
    | error e => rw [hp] at h; simp at h
    | ok j =>
      simp only [hp] at h
      by_cases h1 : j.status = "completed"
      · rw [if_pos h1] at h
        obtain ⟨rfl, -⟩ : j = job ∧ n + 1 = k := by simpa using h
        exact h1
      · rw [if_neg h1] at h
        by_cases h2 : j.status = "failed"
        · rw [if_pos h2] at h; simp at h
        · rw [if_neg h2] at h
          by_cases h3 : timeout < elapsedAfter n
          · rw [if_pos h3] at h; simp at h
          · rw [if_neg h3] at h
            exact ih (n + 1) job k h

/-- C8 counterexample: after the remote reports "completed", a failing result
download makes `processFile` report the file with final status "failed" (and
the download error as its reason) — not "completed" with a populated error
field, as the claim states. -/
theorem processFile_download_failure_not_completed :
    processFile envDl 1 600000 "scene.blend"
      = some ({ file := "scene.blend"
                error := some "Request failed with status code 404" }, "failed")
    ∧ ("failed" : String) ≠ "completed" := by
  exact ⟨rfl, by decide⟩

/-- C8 (amended): whenever the poll loop has observed the remote status
"completed" and the subsequent result download fails, `processFile` catches
the error and reports the file as terminally failed, carrying the download
error message; the completed observation is discarded rather than reported
with an error annotation. -/
theorem processFile_download_failure_marks_failed (env : ClientEnv) (fuel : ℕ)
    (timeout : ℤ) (filePath : String) (payment : PaymentRequired) (jobId : String)
    (job : RenderJob) (e : String) (k : ℕ)
    (hex : env.fileExists filePath = true)
    (hreq : env.requestRender filePath = .ok payment)
    (hpay : (payForRender env.hasSolana env.sendPayment env.confirmPay payment).1 = .ok jobId)
    (hwait : waitForCompletion (env.polls jobId) env.elapsedAfter timeout fuel 0
      = some (.ok job, k))
    (hdl : env.download jobId = .error e) :
    processFile env fuel timeout filePath
      = some ({ file := filePath, error := some e }, "failed")
    ∧ job.status = "completed" := by
  refine ⟨?_, waitForCompletion_ok_status _ _ _ fuel 0 job k hwait⟩
  unfold processFile
  simp [hex, hreq, hpay, hwait, hdl]

/-- C8 witness: the amended claim applied to the concrete download-failure
environment. -/
theorem processFile_download_failure_marks_failed_witness :
    processFile envDl 1 600000 "scene.blend"
      = some ({ file := "scene.blend"
                error := some "Request failed with status code 404" }, "failed")
    ∧ ("completed" : String) = "completed" := by
  have h := processFile_download_failure_marks_failed envDl 1 600000 "scene.blend"
    quote0 "job-1" ⟨"completed", none, some 12⟩ "Request failed with status code 404" 1
    rfl rfl rfl rfl rfl
  exact ⟨h.1, h.2⟩

/-- Setting a key absent from the map appends the new entry. -/
theorem mapSet_eq_append (m : List (String × ℕ)) (k : String) (v : ℕ)
    (hk : ∀ p ∈ m, p.1 ≠ k) : mapSet m k v = m ++ [(k, v)] := by
  unfold mapSet
  rw [if_neg]
  simp only [List.any_eq_true, beq_iff_eq, not_exists, not_and]
  exact fun p hp => hk p hp

/-- Removing a member entry yields, up to order, the list without one copy of
that entry. -/
theorem removeFirst_perm (l : List (String × ℕ)) (x : String × ℕ) (h : x ∈ l) :
    l.Perm (x :: removeFirst l x) := by
  induction l with
  | nil => simp at h
  | cons p t ih =>
    rcases List.mem_cons.mp h with rfl | hmem
    · simp [removeFirst]
    · by_cases hp : p = x
      · subst hp
        simp [removeFirst]
      · rw [removeFirst, if_neg hp]
        exact (List.Perm.cons p (ih hmem)).trans (List.Perm.swap x p _)

/-- Removal never adds entries. -/
theorem removeFirst_sublist (l : List (String × ℕ)) (x : String × ℕ) :
    (removeFirst l x).Sublist l := by
  induction l with
  | nil => simp [removeFirst]
  | cons p t ih =>
    rw [removeFirst]
    split
    · exact (List.sublist_cons_self p t)
    · exact ih.cons₂ p

/-- Removing a member entry shortens the list by one. -/
theorem length_removeFirst_of_mem (l : List (String × ℕ)) (x : String × ℕ)
    (h : x ∈ l) : (removeFirst l x).length = l.length - 1 := by
  have := (removeFirst_perm l x h).length_eq
  simp only [List.length_cons] at this
  omega

/-- On a map with pairwise-distinct keys, deleting the key of a member entry
is exactly removing that entry. -/
theorem mapDelete_eq_removeFirst (l : List (String × ℕ)) (f : String) (id : ℕ)
    (hmem : (f, id) ∈ l) (hnd : (l.map Prod.fst).Nodup) :
    mapDelete l f = removeFirst l (f, id) := by
  induction l with
  | nil => simp at hmem
  | cons p t ih =>
    simp only [List.map_cons, List.nodup_cons] at hnd
    rcases List.mem_cons.mp hmem with rfl | hmem'
    · have ht : mapDelete t f = t := by
        unfold mapDelete
        apply List.filter_eq_self.mpr
        intro q hq
        simp only [Bool.not_eq_eq_eq_not, Bool.not_true, beq_eq_false_iff_ne, ne_eq]
        intro hqf
        apply hnd.1
        have hq1 : q.1 ∈ t.map Prod.fst := List.mem_map_of_mem Prod.fst hq
        simpa [hqf] using hq1
      unfold mapDelete
      simp only [List.filter_cons, beq_self_eq_true, Bool.not_true, if_neg]
      rw [removeFirst, if_pos rfl]
      simpa [mapDelete] using ht
    · have hpf : p.1 ≠ f := by
        intro hpf
        exact hnd.1 (hpf ▸ List.mem_map_of_mem Prod.fst hmem')
      have hpne : p ≠ (f, id) := by
        intro hpe
        exact hpf (by rw [hpe])
      unfold mapDelete
      rw [List.filter_cons_of_pos (by simpa using hpf), removeFirst, if_neg hpne]
      exact congrArg (p :: ·) (ih hmem' hnd.2)

/-- The `active` map after a completion, in either branch. -/
theorem applyFinish_active (stopOnError : Bool) (outcome : String → BatchFileResult)
    (s : BatchState) (f : String) (id : ℕ) :
    (applyFinish stopOnError outcome s f id).active = mapDelete s.active f := rfl

/-- The in-flight set after a completion, in either branch. -/
theorem applyFinish_running (stopOnError : Bool) (outcome : String → BatchFileResult)
    (s : BatchState) (f : String) (id : ℕ) :
    (applyFinish stopOnError outcome s f id).running = removeFirst s.running (f, id) := rfl

/-- The scheduling loop can take a step from `s` iff `canStep` says so:
either a queued file fits under the concurrency guard, or some promise is in
flight. -/
theorem canStep_iff (N : ℤ) (stopOnError : Bool) (outcome : String → BatchFileResult)
    (s : BatchState) :
    canStep N s = true ↔ ∃ s', BatchStep N stopOnError outcome s s' := by
  constructor
  · intro h
    simp only [canStep, Bool.or_eq_true, Bool.and_eq_true, Bool.not_eq_true',
      List.isEmpty_eq_false_iff_exists_mem, decide_eq_true_eq,
      List.isEmpty_eq_false] at h
    rcases h with ⟨hne, hcap⟩ | hne
    · rcases hq : s.queue with _ | ⟨f, rest⟩
      · rw [hq] at hne; simp at hne
      · exact ⟨_, BatchStep.start s f rest hq hcap⟩
    · rcases hr : s.running with _ | ⟨⟨f, id⟩, rtail⟩
      · rw [hr] at hne; simp at hne
      · exact ⟨_, BatchStep.finish s f id (by rw [hr]; exact List.mem_cons_self _ _)⟩
  · rintro ⟨s', h⟩
    cases h with
    | start f rest hq hcap =>
      simp [canStep, hq, hcap]
    | finish f id hmem =>
      have hne : s.running ≠ [] := List.ne_nil_of_mem hmem
      simp [canStep, hne]

/-- With `stopOnError = false`, one scheduler step never creates or drops a
file: the multiset of queued, in-flight and recorded files is preserved
(a start moves a file from the queue into flight; a completion moves it from
flight into exactly one partition). -/
theorem batchFiles_perm_of_step (N : ℤ) (outcome : String → BatchFileResult)
    (hoc : ∀ f, (outcome f).file = f) (s s' : BatchState)
    (h : BatchStep N false outcome s s') : (batchFiles s').Perm (batchFiles s) := by
  cases h with
  | start f rest hq hcap =>
    rw [List.perm_iff_count]
    intro a
    by_cases hf : a = f
    · subst hf
      simp [batchFiles, applyStart, hq, List.count_append, List.count_cons]
      omega
    · simp [batchFiles, applyStart, hq, List.count_append, List.count_cons, hf]
  | finish f id hmem =>
    rw [List.perm_iff_count]
    intro a
    have hR := removeFirst_perm s.running (f, id) hmem
    have hc := (hR.map Prod.fst).count_eq a
    simp only [List.map_cons, List.count_cons] at hc
    by_cases ht : jsTruthy (outcome f).error
    · by_cases hf : a = f
      · subst hf
        simp [batchFiles, applyFinish, ht, hoc, List.count_append, List.count_cons] at hc ⊢
        omega
      · have hfa : ¬ (f = a) := fun h => hf h.symm
        simp [batchFiles, applyFinish, ht, hoc, List.count_append, List.count_cons, hf, hfa]
          at hc ⊢
        omega
    · by_cases hf : a = f
      · subst hf
        simp [batchFiles, applyFinish, ht, hoc, List.count_append, List.count_cons] at hc ⊢
        omega
      · have hfa : ¬ (f = a) := fun h => hf h.symm
        simp [batchFiles, applyFinish, ht, hoc, List.count_append, List.count_cons, hf, hfa]
          at hc ⊢
        omega

/-- Along any execution with `stopOnError = false`, the queued, in-flight and
recorded files together stay a permutation of the input list. -/
theorem batchFiles_perm_reach (files : List String) (N : ℤ)
    (outcome : String → BatchFileResult) (hoc : ∀ f, (outcome f).file = f)
    (s : BatchState)
    (h : Relation.ReflTransGen (BatchStep N false outcome) (initState files) s) :
    (batchFiles s).Perm files := by
  induction h with
  | refl => simp [batchFiles, initState]
  | tail h1 h2 ih => exact (batchFiles_perm_of_step N outcome hoc _ _ h2).trans ih

/-- Along any execution, every recorded failure carries a truthy error
message, and no recorded success does (the `.then` branches on
`if (result.error)`). -/
theorem batchResults_error_inv (N : ℤ) (stopOnError : Bool)
    (outcome : String → BatchFileResult) (files : List String) (s : BatchState)
    (h : Relation.ReflTransGen (BatchStep N stopOnError outcome) (initState files) s) :
    (∀ r ∈ s.failed, jsTruthy r.error = true)
    ∧ (∀ r ∈ s.successful, jsTruthy r.error = false) := by
  induction h with
  | refl => constructor <;> intro r hr <;> simp [initState] at hr
  | tail h1 h2 ih =>
    cases h2 with
    | start f rest hq hcap => exact ih
    | finish f id hmem =>
      by_cases ht : jsTruthy (outcome f).error
      · refine ⟨?_, ?_⟩
        · intro r hr
          simp only [applyFinish, ht, if_true] at hr
          rcases List.mem_append.mp hr with h1 | h1
          · exact ih.1 r h1
          · simp only [List.mem_singleton] at h1
            subst h1
            exact ht
        · intro r hr
          simp only [applyFinish, ht, if_true] at hr
          exact ih.2 r hr
      · refine ⟨?_, ?_⟩
        · intro r hr
          simp only [applyFinish, ht, if_false] at hr
          exact ih.1 r hr
        · intro r hr
          simp only [applyFinish, ht, if_false] at hr
          rcases List.mem_append.mp hr with h1 | h1
          · exact ih.2 r h1
          · simp only [List.mem_singleton] at h1
            subst h1
            exact Bool.not_eq_true _ ▸ (by simpa using ht)

/-- One step preserves the duplicate-free scheduler invariant. -/
theorem distinctInv_step (N : ℤ) (stopOnError : Bool)
    (outcome : String → BatchFileResult) (s s' : BatchState)
    (h : BatchStep N stopOnError outcome s s') (hInv : DistinctInv N s) :
    DistinctInv N s' := by
  obtain ⟨hact, hnd, hlen⟩ := hInv
  cases h with
  | start f rest hq hcap =>
    rw [hq] at hnd
    simp only [List.cons_append, List.nodup_cons] at hnd
    refine ⟨?_, ?_, ?_⟩
    · show mapSet s.active f s.nextId = s.running ++ [(f, s.nextId)]
      rw [hact]
      apply mapSet_eq_append
      intro p hp hpk
      exact hnd.1 (List.mem_append.mpr (Or.inr (by rw [← hpk]; exact List.mem_map_of_mem Prod.fst hp)))
    · show (rest ++ (s.running ++ [(f, s.nextId)]).map Prod.fst).Nodup
      rw [List.map_append]
      show (rest ++ (s.running.map Prod.fst ++ [f])).Nodup
      rw [← List.append_assoc]
      exact List.Perm.nodup List.perm_append_comm (List.nodup_cons.mpr hnd)
    · show ((s.running ++ [(f, s.nextId)]).length : ℤ) ≤ N
      rw [hact] at hcap
      simp only [List.length_append, List.length_cons, List.length_nil]
      push_cast
      omega
  | finish f id hmem =>
    have hndR : (s.running.map Prod.fst).Nodup := (List.nodup_append.mp hnd).2.1
    have herase : mapDelete s.active f = removeFirst s.running (f, id) := by
      rw [hact]
      exact mapDelete_eq_removeFirst s.running f id hmem hndR
    have hsub : ((removeFirst s.running (f, id)).map Prod.fst).Sublist
        (s.running.map Prod.fst) :=
      (removeFirst_sublist s.running (f, id)).map Prod.fst
    have hq' : (s.queue ++ (removeFirst s.running (f, id)).map Prod.fst).Nodup :=
      List.Nodup.sublist (hsub.append_left s.queue) hnd
    refine ⟨herase, ?_, ?_⟩
    · show ((if jsTruthy (outcome f).error && stopOnError then [] else s.queue)
          ++ (removeFirst s.running (f, id)).map Prod.fst).Nodup
      split
      · exact (List.nodup_append.mp hq').2.1
      · exact hq'
    · show ((removeFirst s.running (f, id)).length : ℤ) ≤ N
      rw [length_removeFirst_of_mem s.running (f, id) hmem]
      omega

/-- For a duplicate-free input list, the scheduler invariant holds in every
reachable state. -/
theorem batch_inv_reach (files : List String) (N : ℤ) (stopOnError : Bool)
    (outcome : String → BatchFileResult) (s : BatchState)
    (hnd : files.Nodup) (hN : 0 ≤ N)
    (h : Relation.ReflTransGen (BatchStep N stopOnError outcome) (initState files) s) :
    DistinctInv N s := by
  induction h with
  | refl => exact ⟨rfl, by simpa [initState] using hnd, by simpa [initState] using hN⟩
  | tail h1 h2 ih => exact distinctInv_step N stopOnError outcome _ _ h2 ih

/-- C2 (amended): for a duplicate-free input list with `stopOnError = false`,
whenever the scheduling loop exits — the source's exit condition:
`queue.length === 0 && activePromises.size === 0`, i.e. empty queue and empty
active map — the batch result partitions exactly the input files: up to
permutation each input appears exactly as often in `successful ++ failed` as
in the input list, so none is dropped and none is double-counted, every
failed entry carries a truthy reason and no successful one does.  Errors are
data (`processFile` never rejects), so a per-job error never makes
`renderBatch` itself throw.  Both hypotheses are needed: with
`stopOnError = true` queue-drained inputs vanish (see the counterexample),
and for duplicated paths the loop can exit while a lifecycle is still running
and one copy is missing from both partitions even with `stopOnError = false`
(see `renderBatch_duplicate_drop_without_stopOnError`). -/
theorem renderBatch_complete_partition (files : List String) (N : ℤ)
    (outcome : String → BatchFileResult) (s : BatchState)
    (hoc : ∀ f, (outcome f).file = f)
    (hnd : files.Nodup) (hN : 0 ≤ N)
    (hreach : Relation.ReflTransGen (BatchStep N false outcome) (initState files) s)
    (hq : s.queue = []) (ha : s.active = []) :
    (s.successful.map BatchFileResult.file
      ++ s.failed.map BatchFileResult.file).Perm files
    ∧ (∀ r ∈ s.failed, jsTruthy r.error = true)
    ∧ (∀ r ∈ s.successful, jsTruthy r.error = false) := by
  obtain ⟨hact, -, -⟩ := batch_inv_reach files N false outcome s hnd hN hreach
  have hr : s.running = [] := by
    rw [← hact]
    exact ha
  have hp := batchFiles_perm_reach files N outcome hoc s hreach
  have he := batchResults_error_inv N false outcome files s hreach
  refine ⟨?_, he.1, he.2⟩
  have hbf : batchFiles s
      = s.successful.map BatchFileResult.file ++ s.failed.map BatchFileResult.file := by
    unfold batchFiles
    rw [hq, hr]
    simp
  rw [hbf] at hp
  exact hp

/-- C2 witness: the batch `["a"]` run to completion under concurrency 1 with a
succeeding job: the partition is exactly `["a"]`, in `successful`. -/
theorem renderBatch_complete_partition_witness :
    (doneA.successful.map BatchFileResult.file
        ++ doneA.failed.map BatchFileResult.file).Perm ["a"]
    ∧ (∀ r ∈ doneA.failed, jsTruthy r.error = true)
    ∧ (∀ r ∈ doneA.successful, jsTruthy r.error = false) :=
  renderBatch_complete_partition ["a"] 1 ocBase _ (fun _ => rfl) (by decide) (by norm_num)
    (Relation.ReflTransGen.head (BatchStep.start _ "a" [] rfl (by decide))
      (Relation.ReflTransGen.head (BatchStep.finish _ "a" 0 (by decide))
        Relation.ReflTransGen.refl))
    rfl rfl

/-- Duplicated inputs break the partition even with `stopOnError = false`: on
`["a", "a"]` with concurrency 2, both copies start (the second overwriting the
first's `activePromises` entry); when the second settles first, its `.then`
deletes the shared key, the map empties, and the loop's exit condition holds
with one lifecycle still in flight — the result records "a" once although the
input listed it twice.  This is why `renderBatch_complete_partition` assumes
a duplicate-free input list. -/
theorem renderBatch_duplicate_drop_without_stopOnError :
    Relation.ReflTransGen (BatchStep 2 false ocBase) (initState ["a", "a"]) dupDrop
    ∧ dupDrop.queue = [] ∧ dupDrop.active = []
    ∧ (dupDrop.successful.map BatchFileResult.file
        ++ dupDrop.failed.map BatchFileResult.file).count "a" = 1
    ∧ (["a", "a"].count "a") = 2 := by
  refine ⟨?_, rfl, rfl, by decide, by decide⟩
  exact Relation.ReflTransGen.head (BatchStep.start _ "a" ["a"] rfl (by decide))
    (Relation.ReflTransGen.head (BatchStep.start _ "a" [] rfl (by decide))
      (Relation.ReflTransGen.head (BatchStep.finish _ "a" 1 (by decide))
        Relation.ReflTransGen.refl))

/-- C2 counterexample: batch `["a", "b"]`, concurrency 1, `stopOnError = true`,
where "a" fails: the loop drains the queue and terminates with "a" in the
failed partition, while "b" — still pending when the failure hit — appears in
neither partition: it is silently dropped from the result. -/
theorem renderBatch_stopOnError_drops_pending :
    Relation.ReflTransGen (BatchStep 1 true ocStop) (initState ["a", "b"]) finalStop
    ∧ finalStop.queue = [] ∧ finalStop.running = []
    ∧ "b" ∈ ["a", "b"]
    ∧ "b" ∉ finalStop.successful.map BatchFileResult.file
        ++ finalStop.failed.map BatchFileResult.file := by
  refine ⟨?_, rfl, rfl, by decide, by decide⟩
  exact Relation.ReflTransGen.head (BatchStep.start _ "a" ["b"] rfl (by decide))
    (Relation.ReflTransGen.head (BatchStep.finish _ "a" 0 (by decide))
      Relation.ReflTransGen.refl)

/-- C3 (amended): an empty file list fails fast — with the message "No files
provided for batch rendering" — before any job starts; but a non-positive
`concurrency` is NOT rejected: validation passes, and then the scheduling loop
cannot take a single step while the queue is non-empty, so `renderBatch`
spins forever without starting a job and without reporting invalid input. -/
theorem renderBatch_validation (files : List String) (concurrency : ℤ)
    (stopOnError : Bool) (outcome : String → BatchFileResult) :
    (files = [] → renderBatchValidated files concurrency
        = .error "No files provided for batch rendering")
    ∧ (files ≠ [] → renderBatchValidated files concurrency = .ok (initState files)
        ∧ (initState files).running = [] ∧ (initState files).successful = []
        ∧ (initState files).failed = [])
    ∧ (concurrency ≤ 0 → ∀ s',
        ¬ BatchStep concurrency stopOnError outcome (initState files) s') := by
  refine ⟨?_, ?_, ?_⟩
  · intro h
    subst h
    rfl
  · intro h
    refine ⟨?_, rfl, rfl, rfl⟩
    unfold renderBatchValidated
    rw [if_neg (by simpa using h)]
  · intro hc s' h
    cases h with
    | start f rest hq hcap =>
      simp only [initState, List.length_nil, Nat.cast_zero] at hcap
      omega
    | finish f id hmem =>
      simp [initState] at hmem

/-- C3 witness: the empty batch is rejected with the exact message; a
non-empty batch passes validation with nothing yet started; and with
concurrency 0 no scheduler step is possible from the initial state. -/
theorem renderBatch_validation_witness :
    renderBatchValidated [] 0 = .error "No files provided for batch rendering"
    ∧ renderBatchValidated ["scene.blend"] 2 = .ok (initState ["scene.blend"])
    ∧ ¬ BatchStep 0 false ocBase (initState ["scene.blend"]) (initState ["scene.blend"]) :=
  ⟨(renderBatch_validation [] 0 false ocBase).1 rfl,
    ((renderBatch_validation ["scene.blend"] 2 false ocBase).2.1 (by decide)).1,
    (renderBatch_validation ["scene.blend"] 0 false ocBase).2.2 (by norm_num)
      (initState ["scene.blend"])⟩

/-- C3 counterexample: `concurrency = 0` is not rejected as invalid input —
validation succeeds — and from the initial state the scheduler can make no
progress although a file is pending (the loop guard `canStep` is false:
`renderBatch` busy-loops forever instead of failing fast).  `canStep_iff`
ties this flag to the step relation. -/
theorem renderBatch_zero_concurrency_not_rejected :
    renderBatchValidated ["scene.blend"] 0 = .ok (initState ["scene.blend"])
    ∧ canStep 0 (initState ["scene.blend"]) = false
    ∧ (initState ["scene.blend"]).queue = ["scene.blend"] :=
  ⟨rfl, rfl, rfl⟩

/-- C4 (amended): for pairwise-distinct input files and any bound N ≥ 1, every
reachable scheduler state has at most N lifecycles in flight; moreover right
after any completion the active map is strictly below N, so the refill check
of that same scheduling iteration can immediately start the next queued file —
a freed slot is reusable within one iteration.  For inputs with duplicated
paths the ceiling can be exceeded (see the counterexample): the in-flight map
is keyed by file path, so starting a duplicate overwrites the earlier entry
while both lifecycles keep running. -/
theorem renderBatch_concurrency_ceiling (files : List String) (N : ℤ)
    (stopOnError : Bool) (outcome : String → BatchFileResult) (s : BatchState)
    (hnd : files.Nodup) (hN : 1 ≤ N)
    (hreach : Relation.ReflTransGen (BatchStep N stopOnError outcome)
      (initState files) s) :
    (s.running.length : ℤ) ≤ N
    ∧ ∀ f id, (f, id) ∈ s.running →
        ((applyFinish stopOnError outcome s f id).active.length : ℤ) < N := by
  obtain ⟨hact, hndq, hlen⟩ :=
    batch_inv_reach files N stopOnError outcome s hnd (by omega) hreach
  refine ⟨hlen, ?_⟩
  intro f id hmem
  have hndR : (s.running.map Prod.fst).Nodup := (List.nodup_append.mp hndq).2.1
  have hdel : (applyFinish stopOnError outcome s f id).active
      = removeFirst s.running (f, id) := by
    rw [applyFinish_active, hact]
    exact mapDelete_eq_removeFirst s.running f id hmem hndR
  rw [hdel, length_removeFirst_of_mem s.running (f, id) hmem]
  have hpos : 0 < s.running.length := List.length_pos_of_mem hmem
  omega

/-- C4 witness: one distinct file under concurrency 1, after its start step:
exactly one lifecycle is in flight, within the bound. -/
theorem renderBatch_concurrency_ceiling_witness :
    (oneInFlight.running.length : ℤ) ≤ 1 :=
  (renderBatch_concurrency_ceiling ["a"] 1 false ocBase _ (by decide) (by norm_num)
    (Relation.ReflTransGen.head (BatchStep.start _ "a" [] rfl (by decide))
      Relation.ReflTransGen.refl)).1

/-- C4 counterexample: on the input list `["a", "a", "b"]` with concurrency 2,
the greedy synchronous fill phase of `renderBatch` — these three start steps
run before any completion can be processed — leaves three lifecycles in
flight, exceeding the bound: the second start of "a" overwrote the first one's
`activePromises` entry, so the map size stayed below the limit while both
copies run. -/
theorem renderBatch_duplicate_files_exceed_bound :
    Relation.ReflTransGen (BatchStep 2 false ocBase) (initState ["a", "a", "b"]) dupFill
    ∧ dupFill.running.length = 3
    ∧ dupFill.active.length = 2
    ∧ ¬ ((dupFill.running.length : ℤ) ≤ 2) := by
  refine ⟨?_, rfl, rfl, by decide⟩
  exact Relation.ReflTransGen.head (BatchStep.start _ "a" ["a", "b"] rfl (by decide))
    (Relation.ReflTransGen.head (BatchStep.start _ "a" ["b"] rfl (by decide))
      (Relation.ReflTransGen.head (BatchStep.start _ "b" [] rfl (by decide))
        Relation.ReflTransGen.refl))

end Rayment
